import Mathlib

/-
Shallow embedding of `lib/components/contract.py` (repository tserg/brownie).

The Python module wraps a contract ABI: `_ContractBase.__init__` validates
function names and precomputes signature hashes, `ContractDeployer` deploys
and caches `Contract` instances, `ContractTx`/`ContractCall` bind single ABI
functions, and `_format_inputs` coerces loosely-typed call arguments to the
declared ABI types.

Modelling conventions:
- Python runtime values are the inductive `Value` (None, int, float, str,
  bytes, list, and dicts modelled as numbered references into an explicit
  store, since dicts are mutable and aliased).
- Python floats are modelled as rationals; `int(float)` truncates toward 0.
- Python exceptions are the inductive `Err`.  The spec's error taxonomy names
  are used for the four raise sites of the module: `ConfigurationError` is the
  `ValueError` raised at contract.py:15, `ArgumentCountError` the
  `AttributeError` raised at contract.py:148, `LengthMismatchError` the
  `ValueError` raised at contract.py:155, `TypeConversionError` the
  `ValueError` raised at contract.py:169.  `StopIterationErr` models the
  `StopIteration` escaping `next()` at contract.py:59, `RecursionErr` the
  Python recursion limit, and `TypeErr`/`ValueErr`/`UnpackErr`/`IndexErr` the
  remaining uncaught built-in exceptions of `_format_inputs`.
- External collaborators (web3) are parameters: `sha3 : String → String`
  (hex digest of keccak) and `cs : String → String` (toChecksumAddress).
- String surgery (`rstrip`, `split`, slicing, `in`) is modelled on `List
  Char` with functions mirroring the Python semantics.
- Note on the source text: line 161 of contract.py reads `elif "int" in
  type_:` directly under `try:`; as written the module is a SyntaxError and
  cannot be imported.  The only possible reading of the intent (and the one
  every caller of the module assumes) is `if "int" in type_:`, and the
  embedding of the scalar-coercion chain below uses that reading.
-/

namespace Brownie

/-- Python runtime values appearing in this module.  Dicts are mutable, so a
dict value is a reference (index) into an explicit store of maps. -/
inductive Value : Type where
  | none : Value
  | int : Int → Value
  | float : Rat → Value
  | str : String → Value
  | bytes : List Nat → Value
  | list : List Value → Value
  | dictRef : Nat → Value

/-- Python exceptions raised by the module (see the header comment for the
correspondence with the raise sites of contract.py). -/
inductive Err : Type where
  | ConfigurationError : String → Err
  | ArgumentCountError : String → Err
  | LengthMismatchError : String → Err
  | TypeConversionError : String → Err
  | StopIterationErr : Err
  | RecursionErr : Err
  | TypeErr : String → Err
  | ValueErr : String → Err
  | UnpackErr : Err
  | IndexErr : Err
deriving DecidableEq

/-- `int(float)` truncates toward zero. -/
def ratTrunc (q : Rat) : Int := q.num.tdiv (q.den : Int)

/-- Decides whether `sub` is a prefix of the second list (Python
`str.startswith` on char lists). -/
def prefixOfL : List Char → List Char → Bool
  | [], _ => true
  | _ :: _, [] => false
  | a :: as, b :: bs => a == b && prefixOfL as bs

/-- Python `sub in hay` on char lists. -/
def containsL : List Char → List Char → Bool
  | [], sub => sub.isEmpty
  | h :: t, sub => prefixOfL sub (h :: t) || containsL t sub

/-- Python `sub in s` for strings. -/
def strContainsS (s : String) (sub : String) : Bool :=
  containsL s.data sub.data

/-- Python `s.rstrip(']')` on char lists. -/
def rstripRB (l : List Char) : List Char :=
  (l.reverse.dropWhile (fun c => c = ']')).reverse

/-- Python `s.split(sep)` for a single-character separator. -/
def splitOnChar (c : Char) : List Char → List (List Char)
  | [] => [[]]
  | x :: xs =>
    if x = c then [] :: splitOnChar c xs
    else
      match splitOnChar c xs with
      | [] => [[x]]
      | h :: t => (x :: h) :: t

/-- Python `s.strip()` (whitespace) on char lists. -/
def pyTrim (l : List Char) : List Char :=
  ((l.dropWhile Char.isWhitespace).reverse.dropWhile Char.isWhitespace).reverse

/-- Value of a nonempty all-digit char list. -/
def digitsVal (ds : List Char) : Option Nat :=
  if ds.isEmpty then Option.none
  else if ds.all Char.isDigit then
    some (ds.foldl (fun a c => a * 10 + (c.toNat - 48)) 0)
  else Option.none

/-- Python `int(s)` for a string given as a char list: optional surrounding
whitespace, optional sign, decimal digits. -/
def parseIntChars (l0 : List Char) : Option Int :=
  match pyTrim l0 with
  | '+' :: rest => (digitsVal rest).map (fun n => (n : Int))
  | '-' :: rest => (digitsVal rest).map (fun n => -(n : Int))
  | rest => (digitsVal rest).map (fun n => (n : Int))

/-- Python `int(x)` on a runtime value. -/
def pyInt : Value → Option Int
  | .int n => some n
  | .float q => some (ratTrunc q)
  | .str s => parseIntChars s.data
  | _ => Option.none

/-- Python `list(x)` for the sequences of this module: lists iterate to their
elements, strings to their characters, bytes to their byte values. -/
def pyToList : Value → Option (List Value)
  | .list l => some l
  | .str s => some (s.data.map (fun c => .str (String.singleton c)))
  | .bytes b => some (b.map (fun n => .int (n : Int)))
  | _ => Option.none

/-- Python `type(x).__name__`. -/
def pyTypeName : Value → String
  | .none => "NoneType"
  | .int _ => "int"
  | .float _ => "float"
  | .str _ => "str"
  | .bytes _ => "bytes"
  | .list _ => "list"
  | .dictRef _ => "dict"

/-- Rendering of a float for messages (modelling of Python float repr). -/
def floatStr (q : Rat) : String :=
  toString q.num ++ "/" ++ toString q.den

mutual
/-- Python `repr(x)` (approximate, used only inside messages). -/
def pyRepr : Value → String
  | .none => "None"
  | .int n => toString n
  | .float q => floatStr q
  | .str s => "'" ++ s ++ "'"
  | .bytes b => "b'" ++ String.mk (b.map (fun n => Char.ofNat n)) ++ "'"
  | .list l => "[" ++ String.intercalate ", " (pyReprList l) ++ "]"
  | .dictRef _ => "\x7b...\x7d"

/-- `repr` of every element of a list. -/
def pyReprList : List Value → List String
  | [] => []
  | v :: vs => pyRepr v :: pyReprList vs
end

/-- Python `str(x)` as used by `"...".format(...)`. -/
def pyStr : Value → String
  | .str s => s
  | v => pyRepr v

/-- Big-endian base-256 digits of `v`, `n` bytes wide. -/
def beBytes (v : Nat) (n : Nat) : List Nat :=
  (List.range n).map (fun k => v / 256 ^ (n - 1 - k) % 256)

/-- Python `int.to_bytes(len, "big")`: fails on a negative length, a negative
value, or a value not fitting in `len` bytes. -/
def toBytesBE (v : Int) (len : Int) : Option (List Nat) :=
  if len < 0 then Option.none
  else if v < 0 then Option.none
  else if (256 : Int) ^ len.toNat ≤ v then Option.none
  else some (beBytes v.toNat len.toNat)

/-- The coercion `int(x).to_bytes(int(type_[5:]), "big")` of the scalar bytes
branch (contract.py:165): `type_[5:]` drops the 5 characters `bytes` and the
numeric suffix gives the byte width. -/
def bytesCoerce (ty : String) (v : Value) : Option (List Nat) := do
  let m ← pyInt v
  let len ← parseIntChars (ty.data.drop 5)
  toBytesBE m len

/-- UTF-8 encoding of a string, Python `s.encode()`. -/
def utf8Bytes (s : String) : List Nat :=
  (String.toUTF8 s).data.toList.map (fun b => b.toNat)

/-- Is the value a Python `bytes` object (`type(x) is bytes`)? -/
def isBytesV : Value → Bool
  | .bytes _ => true
  | _ => false

/-- Message of the `AttributeError` raised at contract.py:148 (the spec's
`ArgumentCountError`): reports the expected type list. -/
def acMsg (name : String) (types : List String) : String :=
  name ++ " requires the following arguments: " ++ String.intercalate "," types

/-- Message of the `ValueError` raised at contract.py:155 (the spec's
`LengthMismatchError`). -/
def lmMsg (name : String) (i : Nat) (n : Nat) (ty : String) : String :=
  "'" ++ name ++ "': Argument " ++ toString i ++ ", sequence has a length of "
    ++ toString n ++ ", should be " ++ ty

/-- Message of the `ValueError` raised at contract.py:169 (the spec's
`TypeConversionError`): argument index, runtime type name, value, target
ABI type. -/
def convMsg (name : String) (i : Nat) (v : Value) (ty : String) : String :=
  "'" ++ name ++ "': Argument " ++ toString i ++ ", could not convert "
    ++ pyTypeName v ++ " '" ++ pyStr v ++ "' to type " ++ ty

/-- Body of the `for i, type_ in enumerate(types)` loop of `_format_inputs`
(contract.py:151-171) for one argument: `recur` is the recursive call used by
the array branch.  The scalar chain reads the stray `elif` of contract.py:161
as `if` (see the header comment). -/
def formatOne (recur : List Value → List String → Except Err (List Value))
    (name : String) (i : Nat) (ty : String) (v : Value) : Except Err Value :=
  match ty.data.getLast? with
  | Option.none => .error .IndexErr
  | some c =>
    if c = ']' then
      match splitOnChar '[' (rstripRB ty.data) with
      | [tl, lenl] =>
        match pyToList v with
        | Option.none => .error (.TypeErr (pyTypeName v))
        | some elems =>
          if lenl.isEmpty then
            (recur elems (List.replicate elems.length (String.mk tl))).map Value.list
          else
            match parseIntChars lenl with
            | Option.none => .error (.ValueErr (String.mk lenl))
            | some N =>
              if (elems.length : Int) ≠ N then
                .error (.LengthMismatchError (lmMsg name i elems.length ty))
              else
                (recur elems (List.replicate elems.length (String.mk tl))).map Value.list
      | _ => .error .UnpackErr
    else if strContainsS ty "int" then
      match pyInt v with
      | some n => .ok (.int n)
      | Option.none => .error (.TypeConversionError (convMsg name i v ty))
    else if strContainsS ty "bytes" && !(isBytesV v) then
      match v with
      | .str s =>
        if s.data.take 2 ≠ ['0', 'x'] then .ok (.bytes (utf8Bytes s))
        else .ok (.str s)
      | _ =>
        match bytesCoerce ty v with
        | some bs => .ok (.bytes bs)
        | Option.none => .error (.TypeConversionError (convMsg name i v ty))
    else .ok v

/-- The enumerate loop of `_format_inputs`, transforming each argument in
order and propagating the first exception. -/
def formatLoop (recur : List Value → List String → Except Err (List Value))
    (name : String) (i : Nat) (inputs : List Value) (types : List String) :
    Except Err (List Value) :=
  match types, inputs with
  | [], rest => .ok rest
  | _ :: _, [] => .ok []
  | ty :: tys, v :: vs =>
    match formatOne recur name i ty v with
    | .error e => .error e
    | .ok v' =>
      match formatLoop recur name (i + 1) vs tys with
      | .error e => .error e
      | .ok rest => .ok (v' :: rest)

/-- `_format_inputs(name, inputs, types)` (contract.py:145-172).  `fuel`
models the Python recursion limit: each nested Python call of
`_format_inputs` consumes one unit, and exhaustion is `RecursionErr`. -/
def format_inputs : Nat → String → List Value → List String → Except Err (List Value)
  | 0, _, _, _ => .error .RecursionErr
  | fuel + 1, name, inputs, types =>
    if inputs.length ≠ types.length then
      .error (.ArgumentCountError (acMsg name types))
    else
      formatLoop (fun l ts => format_inputs fuel name l ts) name 0 inputs types

/-- One `{name, type}` pair of an ABI entry's `inputs`. -/
structure AbiInput where
  name : String
  type_ : String

/-- One element of the contract ABI array (the keys this module reads). -/
structure AbiEntry where
  type_ : String
  name : String
  inputs : List AbiInput
  stateMutability : String

/-- `[i['name'] for i in abi if i['type']=="function"]` (contract.py:12). -/
def functionNames (abi : List AbiEntry) : List String :=
  (abi.filter (fun i => i.type_ == "function")).map (fun i => i.name)

/-- `set(i for i in names if names.count(i)>1)` (contract.py:13), as a
duplicate-free list. -/
def duplicates (names : List String) : List String :=
  (names.filter (fun i => names.count i > 1)).dedup

/-- The canonical signature string `"name(type1,type2,...)"` hashed for
selectors and topics (contract.py:20-21). -/
def canonicalSig (e : AbiEntry) : String :=
  e.name ++ "(" ++ String.intercalate "," (e.inputs.map (fun x => x.type_)) ++ ")"

/-- Message of the `ValueError` raised at contract.py:15 (the spec's
`ConfigurationError`). -/
def configMsg (name : String) (dups : List String) : String :=
  "Ambiguous contract functions in " ++ name ++ ": " ++ String.intercalate "," dups

/-- The validated state built by `_ContractBase.__init__`: name, abi, and the
name → topic / name → selector association sequences (Python dicts built from
the same pair sequences). -/
structure ContractBase where
  _name : String
  abi : List AbiEntry
  topics : List (String × String)
  signatures : List (String × String)

/-- `_ContractBase.__init__(name, abi)` (contract.py:10-29): raises on a
duplicated function name, otherwise records the abi and computes 32-byte
event topics and 4-byte (10 hex chars) function selectors via the external
`sha3` hex digest. -/
def contractBaseInit (sha3 : String → String) (name : String) (abi : List AbiEntry) :
    Except Err ContractBase :=
  let dups := duplicates (functionNames abi)
  if dups.isEmpty then
    .ok { _name := name, abi := abi,
          topics := (abi.filter (fun i => i.type_ == "event")).map
            (fun i => (i.name, sha3 (canonicalSig i))),
          signatures := (abi.filter (fun i => i.type_ == "function")).map
            (fun i => (i.name, (sha3 (canonicalSig i)).take 10)) }
  else
    .error (.ConfigurationError (configMsg name dups))

/-- The constructor input-type lookup of `ContractDeployer.deploy`
(contract.py:59): `next(i for i in self.abi if i['type']=="constructor")`
raises `StopIteration` when the ABI has no constructor entry. -/
def constructorTypes (abi : List AbiEntry) : Except Err (List String) :=
  match abi.find? (fun i => i.type_ == "constructor") with
  | Option.none => .error .StopIterationErr
  | some e => .ok (e.inputs.map (fun x => x.type_))

/-- The argument-preparation prefix of `ContractDeployer.deploy`
(contract.py:59-60): look up the constructor's input types, then format the
constructor arguments against them; everything after this point is delegated
to the account collaborator. -/
def deployPrepare (fuel : Nat) (abi : List AbiEntry) (args : List Value) :
    Except Err (List Value) :=
  match constructorTypes abi with
  | .error e => .error e
  | .ok types => format_inputs fuel "constructor" args types

/-- State bound by `_ContractMethod.__init__` (contract.py:104-111): function
name and input types from the ABI fragment, the default owner, and the cached
selector. -/
structure ContractMethod where
  fname : String
  inputTypes : List String
  owner : Value
  sig : String

/-- `_ContractMethod.__init__(fn, abi, owner)`; the low-level `fn` handle is
an external collaborator and is not part of the state. -/
def mkContractMethod (sha3 : String → String) (abiName : String)
    (abiInputTypes : List String) (owner : Value) : ContractMethod :=
  { fname := abiName, inputTypes := abiInputTypes, owner := owner,
    sig := (sha3 (abiName ++ "(" ++ String.intercalate "," abiInputTypes ++ ")")).take 10 }

/-- Contents of one Python dict used as a transaction-options map, as its
insertion-ordered key/value pairs. -/
abbrev TxMap := List (String × Value)

/-- Python `k in d`. -/
def txHasKey (m : TxMap) (k : String) : Bool :=
  (List.lookup k m).isSome

/-- Python `d[k]` as an `Option`. -/
def txGet (m : TxMap) (k : String) : Option Value :=
  List.lookup k m

/-- Python `d[k] = v`: replaces the value in place when the key is present,
otherwise appends (insertion order). -/
def txSet : TxMap → String → Value → TxMap
  | [], k, v => [(k, v)]
  | (k', v') :: rest, k, v =>
    if k' == k then (k, v) :: rest else (k', v') :: txSet rest k v

/-- The in-place mutation `ContractTx.__call__` performs on the trailing
options dict (contract.py:128-131): insert `from` (bound owner) when absent,
truncate a float `value` to an int. -/
def txMutate (owner : Value) (tx0 : TxMap) : TxMap :=
  let tx1 := if txHasKey tx0 "from" then tx0 else txSet tx0 "from" owner
  match txGet tx1 "value" with
  | some (.float q) => txSet tx1 "value" (.int (ratTrunc q))
  | _ => tx1

/-- The submission request handed to the resolved sender's `_contract_tx`
collaborator interface (contract.py:134): the resolved sender, the formatted
positional arguments, and the final options map. -/
structure TxRequest where
  sender : Value
  formatted : List Value
  tx : TxMap

/-- `tx['from']` after `txMutate` (always present; the default is only for
totality of the model). -/
def txSender (owner : Value) (tx : TxMap) : Value :=
  (txGet tx "from").getD owner

/-- `ContractTx.__call__(*args)` (contract.py:125-134) over a store of dicts:
a trailing dict argument is split off and mutated in place, otherwise a fresh
`{'from': owner}` map is used; the remaining positional arguments are run
through `_format_inputs` and the call is delegated to `tx['from']`. -/
def contractTxCall (fuel : Nat) (m : ContractMethod) (store : List TxMap)
    (args : List Value) : List TxMap × Except Err TxRequest :=
  match args.getLast? with
  | some (.dictRef i) =>
    let tx2 := txMutate m.owner (store.getD i [])
    (store.set i tx2,
      (format_inputs fuel m.fname args.dropLast m.inputTypes).map
        (fun fa => { sender := txSender m.owner tx2, formatted := fa, tx := tx2 }))
  | _ =>
    (store,
      (format_inputs fuel m.fname args m.inputTypes).map
        (fun fa => { sender := m.owner, formatted := fa, tx := [("from", m.owner)] }))

/-- Whether a function entry binds a `ContractCall` (view/pure) or a
`ContractTx` (contract.py:84-87). -/
inductive MethodKind where
  | call : MethodKind
  | tx : MethodKind

/-- A `Contract` instance.  `Contract` subclasses `str` with the address as
its string content (`__new__`, contract.py:76-77), so `strValue` is the value
the instance compares and hashes as; `address` is the delegated attribute of
the underlying web3 contract object, constructed with the same address. -/
structure Contract where
  strValue : String
  base : ContractBase
  methods : List (String × MethodKind × ContractMethod)
  address : String
  owner : Value

/-- `Contract(address, name, abi, owner)` (contract.py:76-88): the `str`
content becomes the address, `_ContractBase.__init__` validates the abi, and
one method object per function entry is bound (Call for view/pure, Tx
otherwise). -/
def contractNew (sha3 : String → String) (address : String) (nm : String)
    (abi : List AbiEntry) (owner : Value) : Except Err Contract :=
  match contractBaseInit sha3 nm abi with
  | .error e => .error e
  | .ok cb =>
    .ok { strValue := address, base := cb,
          methods := (abi.filter (fun i => i.type_ == "function")).map (fun i =>
            (i.name,
             (if i.stateMutability == "view" || i.stateMutability == "pure"
              then MethodKind.call else MethodKind.tx),
             mkContractMethod sha3 i.name (i.inputs.map (fun x => x.type_)) owner)),
          address := address, owner := owner }

/-- `__repr__` (contract.py:90-91). -/
def Contract.repr_ (c : Contract) : String :=
  "<" ++ c.base._name ++ " Contract object '" ++ c.address ++ "'>"

/-- `__str__` (contract.py:93-94) returns `__repr__`, so the printable value
of an instance is the repr string, not the bare address. -/
def Contract.str_ (c : Contract) : String := c.repr_

/-- Python `instance == s` for a string `s`: `str.__eq__` on the instance's
string content (Contract subclasses str and does not override `__eq__`). -/
def Contract.pyEq (c : Contract) (s : String) : Bool := c.strValue == s

/-- The insertion-ordered registry `self._deployed` of a deployer. -/
abbrev Registry := List (String × Contract)

/-- `ContractDeployer.at(address, owner)` (contract.py:66-71): checksum the
address via the external collaborator `cs`, return the cached instance when
registered, otherwise construct and register a new `Contract`. -/
def deployerAt (cs sha3 : String → String) (nm : String) (abi : List AbiEntry)
    (st : Registry) (address : String) (owner : Value) :
    Except Err (Registry × Contract) :=
  match List.lookup (cs address) st with
  | some c => .ok (st, c)
  | Option.none =>
    match contractNew sha3 (cs address) nm abi owner with
    | .error e => .error e
    | .ok c => .ok (st ++ [(cs address, c)], c)

/-- Concrete ABI with a duplicated function name (used in witnesses). -/
def abiDupW : List AbiEntry :=
  [⟨"function", "f", [], "view"⟩, ⟨"function", "f", [], "nonpayable"⟩,
   ⟨"event", "E", [], ""⟩, ⟨"event", "E", [], ""⟩]

/-- Concrete ABI without a constructor entry (used in the C6 counterexample). -/
def abiNoCtorW : List AbiEntry := [⟨"function", "foo", [], "view"⟩]

/-- Concrete ABI with a `(uint256)` constructor (used in witnesses). -/
def abiCtorW : List AbiEntry :=
  [⟨"function", "foo", [], "view"⟩, ⟨"constructor", "", [⟨"a", "uint256"⟩], "nonpayable"⟩]

/-- Concrete registered contract produced by `deployerAt` on an empty
registry with collaborators `fun _ => "K"` / `fun _ => "h"` (witnesses). -/
def cKW : Contract :=
  { strValue := "K", base := { _name := "T", abi := [], topics := [], signatures := [] },
    methods := [], address := "K", owner := .none }

/-- Concrete contract instance for the C9 counterexample. -/
def cTokW : Contract :=
  { strValue := "0xABC", base := { _name := "Token", abi := [], topics := [], signatures := [] },
    methods := [], address := "0xABC", owner := .none }

/-- Concrete bound transaction method (witnesses). -/
def mW : ContractMethod :=
  { fname := "f", inputTypes := ["uint256"], owner := .str "owner", sig := "0x" }

/-- The rational 5/2, built in normal form (witnesses: a float tx value). -/
def qW : Rat := ⟨5, 2, by norm_num, by norm_num⟩

/-! Helper lemmas shared by the claim theorems. -/

theorem except_map_eq_error {α β : Type} {f : α → β} {x : Except Err α} {e : Err}
    (h : x.map f = .error e) : x = .error e := by
  cases x with
  | error e' => simpa [Except.map] using h
  | ok a => simp [Except.map] at h

theorem duplicates_isEmpty_iff (names : List String) :
    (duplicates names).isEmpty = true ↔ names.Nodup := by
  rw [duplicates, List.isEmpty_iff, List.dedup_eq_nil, List.filter_eq_nil_iff,
    List.nodup_iff_count_le_one]
  constructor
  · intro h a
    by_cases ha : a ∈ names
    · have := h a ha
      simp only [decide_eq_true_eq] at this
      omega
    · rw [List.count_eq_zero_of_not_mem ha]
      omega
  · intro h a _
    have := h a
    simp only [decide_eq_true_eq]
    omega

theorem splitOnChar_of_not_mem {c : Char} {l : List Char} (h : c ∉ l) :
    splitOnChar c l = [l] := by
  induction l with
  | nil => rfl
  | cons x xs ih =>
    have hx : ¬ x = c := fun he => h (List.mem_cons.mpr (Or.inl he.symm))
    have hxs : c ∉ xs := fun hm => h (List.mem_cons_of_mem _ hm)
    unfold splitOnChar
    rw [if_neg hx, ih hxs]

theorem mem_splitOnChar_not_mem {c : Char} {l : List Char} {p : List Char}
    (hp : p ∈ splitOnChar c l) : c ∉ p := by
  induction l generalizing p with
  | nil =>
    unfold splitOnChar at hp
    rw [List.mem_singleton] at hp
    subst hp
    simp
  | cons x xs ih =>
    unfold splitOnChar at hp
    by_cases hx : x = c
    · rw [if_pos hx] at hp
      rcases List.mem_cons.mp hp with h1 | h2
      · subst h1; simp
      · exact ih h2
    · rw [if_neg hx] at hp
      cases hr : splitOnChar c xs with
      | nil =>
        rw [hr] at hp
        rw [List.mem_singleton] at hp
        subst hp
        intro hc
        rw [List.mem_singleton] at hc
        exact hx hc.symm
      | cons hd tl =>
        rw [hr] at hp
        rcases List.mem_cons.mp hp with h1 | h2
        · subst h1
          intro hc
          rcases List.mem_cons.mp hc with h3 | h4
          · exact hx h3.symm
          · exact ih (hr ▸ List.mem_cons_self hd tl) h4
        · exact ih (hr ▸ List.mem_cons_of_mem hd h2)

theorem mem_rstripRB {a : Char} {l : List Char} (h : a ∈ rstripRB l) : a ∈ l := by
  unfold rstripRB at h
  rw [List.mem_reverse] at h
  exact List.mem_reverse.mp ((List.dropWhile_sublist _).mem h)

/-- C1: ABI index construction (`_ContractBase.__init__`) succeeds exactly
when no two entries of type "function" share a name — entries of other types
(e.g. duplicated event names) are not considered — and on a duplicate it
fails with the `ConfigurationError` ("Ambiguous contract functions ...")
naming the repeated names. -/
theorem c1_abi_index (sha3 : String → String) (nm : String) (abi : List AbiEntry) :
    ((∃ cb, contractBaseInit sha3 nm abi = .ok cb) ↔ (functionNames abi).Nodup) ∧
    (¬ (functionNames abi).Nodup →
      contractBaseInit sha3 nm abi =
        .error (.ConfigurationError (configMsg nm (duplicates (functionNames abi))))) := by
  unfold contractBaseInit
  by_cases h : (duplicates (functionNames abi)).isEmpty = true
  · rw [if_pos h]
    have hnd := (duplicates_isEmpty_iff (functionNames abi)).mp h
    exact ⟨by simp [hnd], fun hc => absurd hnd hc⟩
  · rw [if_neg h]
    refine ⟨?_, fun _ => rfl⟩
    have : ¬ (functionNames abi).Nodup := fun hnd =>
      h ((duplicates_isEmpty_iff (functionNames abi)).mpr hnd)
    simp [this]

/-- Witness for C1 at a concrete ABI: duplicated function name "f" (with
duplicated event names "E", which alone would not fail) raises the
`ConfigurationError`, and the duplicate-free ABI `abiCtorW` succeeds. -/
theorem c1_abi_index_witness :
    contractBaseInit (fun _ => "") "X" abiDupW =
      .error (.ConfigurationError "Ambiguous contract functions in X: f") ∧
    (functionNames abiDupW).Nodup = False ∧
    (∃ cb, contractBaseInit (fun _ => "") "X" abiCtorW = .ok cb) := by
  refine ⟨?_, by simp [functionNames, abiDupW], ?_⟩
  · exact ((c1_abi_index (fun _ => "") "X" abiDupW).2 (by decide)).trans (by rfl)
  · exact (c1_abi_index (fun _ => "") "X" abiCtorW).1.mpr (by decide)

theorem formatOne_ne_ace
    (recur : List Value → List String → Except Err (List Value))
    (name : String) (i : Nat) (ty : String) (v : Value)
    (hrec : ∀ (l : List Value) (t : String) (m : String),
      recur l (List.replicate l.length t) ≠ .error (.ArgumentCountError m)) :
    ∀ m, formatOne recur name i ty v ≠ .error (.ArgumentCountError m) := by
  intro m h
  unfold formatOne at h
  repeat' split at h
  all_goals first
    | (simp_all; done)
    | exact hrec _ _ _ (except_map_eq_error h)

theorem formatLoop_ne_ace
    (recur : List Value → List String → Except Err (List Value))
    (name : String)
    (hrec : ∀ (l : List Value) (t : String) (m : String),
      recur l (List.replicate l.length t) ≠ .error (.ArgumentCountError m)) :
    ∀ (types : List String) (inputs : List Value) (i : Nat) (m : String),
      formatLoop recur name i inputs types ≠ .error (.ArgumentCountError m) := by
  intro types
  induction types with
  | nil => intro inputs i m h; cases inputs <;> simp [formatLoop] at h
  | cons ty tys ih =>
    intro inputs i m h
    cases inputs with
    | nil => simp [formatLoop] at h
    | cons v vs =>
      unfold formatLoop at h
      split at h
      · rename_i e he
        rw [Except.error.injEq] at h
        subst h
        exact formatOne_ne_ace recur name i ty v hrec m he
      · split at h
        · rename_i e he
          rw [Except.error.injEq] at h
          subst h
          exact ih vs (i + 1) m he
        · simp at h

theorem format_inputs_ne_ace (fuel : Nat) :
    ∀ (name : String) (inputs : List Value) (types : List String),
      inputs.length = types.length →
      ∀ m, format_inputs fuel name inputs types ≠ .error (.ArgumentCountError m) := by
  induction fuel with
  | zero => intro name inputs types _ m h; simp [format_inputs] at h
  | succ fuel ih =>
    intro name inputs types hlen m h
    unfold format_inputs at h
    rw [if_neg (by omega)] at h
    exact formatLoop_ne_ace _ name
      (fun l t m' => ih name l (List.replicate l.length t) (by simp) m') types inputs 0 m h

/-- C2: the formatter raises the `ArgumentCountError` (whose message reports
the expected type list) exactly on a length mismatch between supplied inputs
and declared types: it is raised whenever the lengths differ, and never
raised (at any fuel, including by the nested array recursions) when they are
equal. -/
theorem c2_arity_check (fuel : Nat) (name : String) (inputs : List Value)
    (types : List String) :
    (inputs.length ≠ types.length →
      format_inputs (fuel + 1) name inputs types =
        .error (.ArgumentCountError (acMsg name types))) ∧
    (∃ a b, (acMsg name types).data = a ++ (String.intercalate "," types).data ++ b) ∧
    (inputs.length = types.length →
      ∀ m, format_inputs fuel name inputs types ≠ .error (.ArgumentCountError m)) := by
  refine ⟨fun h => ?_, ?_, fun h m => format_inputs_ne_ace fuel name inputs types h m⟩
  · unfold format_inputs
    rw [if_pos h]
  · exact ⟨(name ++ " requires the following arguments: ").data, [], by
      simp [acMsg, String.data_append]⟩

/-- Witness for C2 at concrete inputs: two arguments against one declared
type fail with the exact message, one argument against one type succeeds and
never sees an `ArgumentCountError`. -/
theorem c2_arity_check_witness :
    format_inputs 10 "f" [.int 1, .int 2] ["uint256"] =
      .error (.ArgumentCountError "f requires the following arguments: uint256") ∧
    format_inputs 10 "f" [.int 5] ["uint256"] = .ok [.int 5] ∧
    (∀ m, format_inputs 10 "f" [.int 5] ["uint256"] ≠ .error (.ArgumentCountError m)) := by
  refine ⟨((c2_arity_check 9 "f" [.int 1, .int 2] ["uint256"]).1 (by decide)).trans (by rfl),
    by rfl, fun m => (c2_arity_check 10 "f" [.int 5] ["uint256"]).2.2 (by decide) m⟩

theorem formatOne_ne_lme
    (recur : List Value → List String → Except Err (List Value))
    (name : String) (i : Nat) (ty : String) (v : Value) (hbf : '[' ∉ ty.data) :
    ∀ m, formatOne recur name i ty v ≠ .error (.LengthMismatchError m) := by
  intro m h
  have hsp : splitOnChar '[' (rstripRB ty.data) = [rstripRB ty.data] :=
    splitOnChar_of_not_mem (fun hm => hbf (mem_rstripRB hm))
  unfold formatOne at h
  repeat' split at h
  all_goals simp_all

theorem formatLoop_ne_lme
    (recur : List Value → List String → Except Err (List Value))
    (name : String) :
    ∀ (types : List String) (inputs : List Value) (i : Nat),
      (∀ t ∈ types, '[' ∉ t.data) →
      ∀ m, formatLoop recur name i inputs types ≠ .error (.LengthMismatchError m) := by
  intro types
  induction types with
  | nil => intro inputs i _ m h; cases inputs <;> simp [formatLoop] at h
  | cons ty tys ih =>
    intro inputs i hbf m h
    cases inputs with
    | nil => simp [formatLoop] at h
    | cons v vs =>
      unfold formatLoop at h
      split at h
      · rename_i e he
        rw [Except.error.injEq] at h
        subst h
        exact formatOne_ne_lme recur name i ty v (hbf ty (List.mem_cons_self ty tys)) m he
      · split at h
        · rename_i e he
          rw [Except.error.injEq] at h
          subst h
          exact ih vs (i + 1) (fun t ht => hbf t (List.mem_cons_of_mem ty ht)) m he
        · simp at h

theorem format_inputs_ne_lme (fuel : Nat) (name : String) (inputs : List Value)
    (types : List String) (hbf : ∀ t ∈ types, '[' ∉ t.data) :
    ∀ m, format_inputs fuel name inputs types ≠ .error (.LengthMismatchError m) := by
  intro m h
  cases fuel with
  | zero => simp [format_inputs] at h
  | succ fuel =>
    unfold format_inputs at h
    split at h
    · simp at h
    · exact formatLoop_ne_lme _ name types inputs 0 hbf m h

/-- C3: for an argument whose declared type parses as an array (`T[N]` or
`T[]`, via the code's own rstrip/split surgery): with an explicit fixed
length `N` the formatter fails with the `LengthMismatchError` exactly when
the supplied sequence's length differs from `N` (the nested recursion never
produces this error since the element type contains no bracket); with a
matching fixed length, or with no length (`T[]`), it recurses, applying the
element type `T` to every element of the sequence. -/
theorem c3_array_format (fuel : Nat) (name : String) (i : Nat) (ty : String)
    (tl lenl : List Char) (l : List Value)
    (harr : ty.data.getLast? = some ']')
    (hsplit : splitOnChar '[' (rstripRB ty.data) = [tl, lenl]) :
    (∀ N : Int, parseIntChars lenl = some N →
      (((∃ m, formatOne (fun l' ts => format_inputs fuel name l' ts) name i ty (.list l)
            = .error (.LengthMismatchError m)) ↔ (l.length : Int) ≠ N) ∧
       ((l.length : Int) ≠ N →
         ∀ recur, formatOne recur name i ty (.list l)
           = .error (.LengthMismatchError (lmMsg name i l.length ty))) ∧
       ((l.length : Int) = N →
         ∀ recur, formatOne recur name i ty (.list l)
           = (recur l (List.replicate l.length (String.mk tl))).map Value.list))) ∧
    (lenl = [] →
      ∀ recur, formatOne recur name i ty (.list l)
        = (recur l (List.replicate l.length (String.mk tl))).map Value.list) := by
  have htl : '[' ∉ tl := by
    refine mem_splitOnChar_not_mem (c := '[') (l := rstripRB ty.data) ?_
    rw [hsplit]
    exact List.mem_cons_self tl [lenl]
  have hbase : ∀ recur, formatOne recur name i ty (Value.list l) =
      (if lenl.isEmpty then
        (recur l (List.replicate l.length (String.mk tl))).map Value.list
      else
        match parseIntChars lenl with
        | Option.none => .error (.ValueErr (String.mk lenl))
        | some N =>
          if (l.length : Int) ≠ N then
            .error (.LengthMismatchError (lmMsg name i l.length ty))
          else (recur l (List.replicate l.length (String.mk tl))).map Value.list) := by
    intro recur
    simp only [formatOne, harr, hsplit, pyToList, if_true]
  constructor
  · intro N hN
    have hne : lenl.isEmpty = false := by
      cases hl : lenl with
      | nil => subst hl; simp [parseIntChars, pyTrim, digitsVal] at hN
      | cons a as => rfl
    have hstep : ∀ recur, formatOne recur name i ty (Value.list l) =
        (if (l.length : Int) ≠ N then
          .error (.LengthMismatchError (lmMsg name i l.length ty))
        else (recur l (List.replicate l.length (String.mk tl))).map Value.list) := by
      intro recur
      rw [hbase recur, hne]
      simp only [Bool.false_eq_true, if_false, hN]
    refine ⟨?_, fun h recur => by rw [hstep recur, if_pos h],
      fun h recur => by rw [hstep recur, if_neg (by omega)]⟩
    constructor
    · rintro ⟨m, hm⟩
      by_contra hNe
      rw [hstep, if_neg (not_not_intro hNe)] at hm
      have := except_map_eq_error hm
      refine format_inputs_ne_lme fuel name l (List.replicate l.length (String.mk tl))
        ?_ m this
      intro t ht
      rw [List.eq_of_mem_replicate ht]
      exact htl
    · intro h
      exact ⟨lmMsg name i l.length ty, by rw [hstep, if_pos h]⟩
  · intro hl recur
    rw [hbase recur, hl]
    rfl

/-- Witness for C3 at concrete input: `uint256[3]` against a 2-element list
fails with the exact `LengthMismatchError` message, and against a 3-element
list recurses applying `uint256` to every element. -/
theorem c3_array_format_witness :
    formatOne (fun l' ts => format_inputs 9 "f" l' ts) "f" 0 "uint256[3]"
        (.list [.int 1, .int 2]) =
      .error (.LengthMismatchError
        "'f': Argument 0, sequence has a length of 2, should be uint256[3]") ∧
    formatOne (fun l' ts => format_inputs 9 "f" l' ts) "f" 0 "uint256[3]"
        (.list [.int 1, .int 2, .int 3]) =
      .ok (.list [.int 1, .int 2, .int 3]) := by
  have h1 := ((c3_array_format 9 "f" 0 "uint256[3]" "uint256".data ['3']
      [.int 1, .int 2] (by decide) (by decide)).1 3 (by decide)).2.1 (by decide)
      (fun l' ts => format_inputs 9 "f" l' ts)
  have h2 := ((c3_array_format 9 "f" 0 "uint256[3]" "uint256".data ['3']
      [.int 1, .int 2, .int 3] (by decide) (by decide)).1 3 (by decide)).2.2 (by decide)
      (fun l' ts => format_inputs 9 "f" l' ts)
  exact ⟨h1.trans (by rfl), h2.trans (by rfl)⟩

theorem formatOne_scalar
    (recur : List Value → List String → Except Err (List Value))
    (name : String) (i : Nat) (ty : String) (v : Value) (c : Char)
    (hlast : ty.data.getLast? = some c) (hne : c ≠ ']') :
    formatOne recur name i ty v =
      (if strContainsS ty "int" then
        match pyInt v with
        | some n => .ok (.int n)
        | Option.none => .error (.TypeConversionError (convMsg name i v ty))
      else if strContainsS ty "bytes" && !(isBytesV v) then
        match v with
        | .str s =>
          if s.data.take 2 ≠ ['0', 'x'] then .ok (.bytes (utf8Bytes s))
          else .ok (.str s)
        | _ =>
          match bytesCoerce ty v with
          | some bs => .ok (.bytes bs)
          | Option.none => .error (.TypeConversionError (convMsg name i v ty))
      else .ok v) := by
  simp only [formatOne, hlast, if_neg hne]

/-- C4: scalar bytes coercion (intended reading of the scalar chain, see the
header comment on the SyntaxError at contract.py:161).  For a non-array type
containing "bytes" (and not "int"): raw bytes pass through unchanged;
hex-prefixed strings pass through unchanged; other strings are encoded as the
UTF-8 bytes of their text; any other value is converted to an integer and
then to a big-endian byte sequence whose width is the numeric suffix of the
type name (`type_[5:]`, so bytes32 → 32 bytes). -/
theorem c4_bytes_coercion
    (recur : List Value → List String → Except Err (List Value))
    (name : String) (i : Nat) (ty : String) (c : Char)
    (hlast : ty.data.getLast? = some c) (hne : c ≠ ']')
    (hint : strContainsS ty "int" = false)
    (hbytes : strContainsS ty "bytes" = true) :
    (∀ b, formatOne recur name i ty (.bytes b) = .ok (.bytes b)) ∧
    (∀ s, s.data.take 2 = ['0', 'x'] →
      formatOne recur name i ty (.str s) = .ok (.str s)) ∧
    (∀ s, s.data.take 2 ≠ ['0', 'x'] →
      formatOne recur name i ty (.str s) = .ok (.bytes (utf8Bytes s))) ∧
    (∀ v, isBytesV v = false → (∀ s, v ≠ .str s) →
      formatOne recur name i ty v =
        match bytesCoerce ty v with
        | some bs => .ok (.bytes bs)
        | Option.none => .error (.TypeConversionError (convMsg name i v ty))) := by
  refine ⟨fun b => ?_, fun s hs => ?_, fun s hs => ?_, fun v hbv hstr => ?_⟩
  · rw [formatOne_scalar recur name i ty _ c hlast hne]
    simp [hint, isBytesV]
  · rw [formatOne_scalar recur name i ty _ c hlast hne]
    simp [hint, hbytes, isBytesV, hs]
  · rw [formatOne_scalar recur name i ty _ c hlast hne]
    simp [hint, hbytes, isBytesV, hs]
  · rw [formatOne_scalar recur name i ty _ c hlast hne]
    cases v with
    | str s => exact absurd rfl (hstr s)
    | bytes b => simp [isBytesV] at hbv
    | none => simp [hint, hbytes, isBytesV]
    | int n => simp [hint, hbytes, isBytesV]
    | float q => simp [hint, hbytes, isBytesV]
    | list l => simp [hint, hbytes, isBytesV]
    | dictRef r => simp [hint, hbytes, isBytesV]

/-- Witness for C4 at concrete inputs: `bytes32` of the integer 1 gives the
32-byte big-endian encoding of 1; a hex-prefixed string and a raw bytes value
pass through unchanged; `bytes2` of "hi" gives the UTF-8 bytes of "hi". -/
theorem c4_bytes_coercion_witness :
    formatOne (fun _ _ => .ok []) "f" 0 "bytes32" (.int 1) =
      .ok (.bytes (List.replicate 31 0 ++ [1])) ∧
    formatOne (fun _ _ => .ok []) "f" 0 "bytes2" (.str "0xabcd") = .ok (.str "0xabcd") ∧
    formatOne (fun _ _ => .ok []) "f" 0 "bytes2" (.str "hi") = .ok (.bytes [104, 105]) ∧
    formatOne (fun _ _ => .ok []) "f" 0 "bytes2" (.bytes [1, 2]) = .ok (.bytes [1, 2]) := by
  have h32 := c4_bytes_coercion (fun _ _ => .ok []) "f" 0 "bytes32" '2'
    (by decide) (by decide) (by decide) (by decide)
  have h2 := c4_bytes_coercion (fun _ _ => .ok []) "f" 0 "bytes2" '2'
    (by decide) (by decide) (by decide) (by decide)
  refine ⟨?_, ?_, ?_, h2.1 [1, 2]⟩
  · exact (h32.2.2.2 (.int 1) rfl (fun s h => Value.noConfusion h)).trans (by rfl)
  · exact h2.2.1 "0xabcd" (by decide)
  · exact (h2.2.2.1 "hi" (by decide)).trans (by rfl)

/-- C5: scalar integer coercion and conversion-failure reporting (intended
reading of the scalar chain, see the header comment on the SyntaxError at
contract.py:161).  For a non-array type containing "int" the value is
coerced via Python `int()`, and a failed scalar coercion — integer or bytes —
raises the `TypeConversionError` whose message contains the argument index,
the value's runtime type name, the value, and the target ABI type string. -/
theorem c5_scalar_conversion
    (recur : List Value → List String → Except Err (List Value))
    (name : String) (i : Nat) (ty : String) (v : Value) (c : Char)
    (hlast : ty.data.getLast? = some c) (hne : c ≠ ']') :
    (strContainsS ty "int" = true →
      formatOne recur name i ty v =
        match pyInt v with
        | some n => .ok (.int n)
        | Option.none => .error (.TypeConversionError (convMsg name i v ty))) ∧
    (strContainsS ty "int" = false → strContainsS ty "bytes" = true →
      isBytesV v = false → (∀ s, v ≠ .str s) → bytesCoerce ty v = Option.none →
      formatOne recur name i ty v =
        .error (.TypeConversionError (convMsg name i v ty))) ∧
    (∃ a b, (convMsg name i v ty).data = a ++ (toString i).data ++ b) ∧
    (∃ a b, (convMsg name i v ty).data = a ++ (pyTypeName v).data ++ b) ∧
    (∃ a b, (convMsg name i v ty).data = a ++ (pyStr v).data ++ b) ∧
    (∃ a b, (convMsg name i v ty).data = a ++ ty.data ++ b) := by
  refine ⟨fun hint => ?_, fun hint hbytes hbv hstr hco => ?_, ?_, ?_, ?_, ?_⟩
  · rw [formatOne_scalar recur name i ty v c hlast hne]
    simp [hint]
  · rw [formatOne_scalar recur name i ty v c hlast hne]
    cases v with
    | str s => exact absurd rfl (hstr s)
    | bytes b => simp [isBytesV] at hbv
    | none => simp [hint, hbytes, isBytesV, hco]
    | int n => simp [hint, hbytes, isBytesV, hco]
    | float q => simp [hint, hbytes, isBytesV, hco]
    | list l => simp [hint, hbytes, isBytesV, hco]
    | dictRef r => simp [hint, hbytes, isBytesV, hco]
  · exact ⟨("'" ++ name ++ "': Argument ").data,
      (", could not convert " ++ pyTypeName v ++ " '" ++ pyStr v ++ "' to type " ++ ty).data,
      by simp [convMsg, String.data_append, List.append_assoc]⟩
  · exact ⟨("'" ++ name ++ "': Argument " ++ toString i ++ ", could not convert ").data,
      (" '" ++ pyStr v ++ "' to type " ++ ty).data,
      by simp [convMsg, String.data_append, List.append_assoc]⟩
  · exact ⟨("'" ++ name ++ "': Argument " ++ toString i ++ ", could not convert "
        ++ pyTypeName v ++ " '").data,
      ("' to type " ++ ty).data,
      by simp [convMsg, String.data_append, List.append_assoc]⟩
  · exact ⟨("'" ++ name ++ "': Argument " ++ toString i ++ ", could not convert "
        ++ pyTypeName v ++ " '" ++ pyStr v ++ "' to type ").data, [],
      by simp [convMsg, String.data_append, List.append_assoc]⟩

/-- Witness for C5 at concrete inputs: `uint8` of "7" coerces to the integer
7; `uint256` of "abc" and `bytes32` of a list fail with the exact message
carrying index, runtime type name, value, and target type. -/
theorem c5_scalar_conversion_witness :
    formatOne (fun _ _ => .ok []) "f" 0 "uint8" (.str "7") = .ok (.int 7) ∧
    formatOne (fun _ _ => .ok []) "f" 0 "uint256" (.str "abc") =
      .error (.TypeConversionError
        "'f': Argument 0, could not convert str 'abc' to type uint256") ∧
    formatOne (fun _ _ => .ok []) "f" 1 "bytes32" (.list [.int 1]) =
      .error (.TypeConversionError
        "'f': Argument 1, could not convert list '[1]' to type bytes32") := by
  have hu8 := (c5_scalar_conversion (fun _ _ => .ok []) "f" 0 "uint8" (.str "7") '8'
    (by decide) (by decide)).1 (by decide)
  have hu256 := (c5_scalar_conversion (fun _ _ => .ok []) "f" 0 "uint256" (.str "abc") '6'
    (by decide) (by decide)).1 (by decide)
  have hb := (c5_scalar_conversion (fun _ _ => .ok []) "f" 1 "bytes32" (.list [.int 1]) '2'
    (by decide) (by decide)).2.1 (by decide) (by decide) rfl
    (fun s h => Value.noConfusion h) (by rfl)
  exact ⟨hu8.trans (by rfl), hu256.trans (by rfl), hb.trans (by rfl)⟩

/-- C6 counterexample: for the concrete ABI `abiNoCtorW`, which has no entry
of type "constructor", `deploy`'s constructor lookup raises `StopIteration`
(the `next()` at contract.py:59 has no default), so deploy with zero
arguments does NOT format against an empty input type list (`.ok []`), as the
claim states. -/
theorem c6_no_constructor_cex :
    constructorTypes abiNoCtorW = .error .StopIterationErr ∧
    deployPrepare 10 abiNoCtorW [] = .error .StopIterationErr ∧
    deployPrepare 10 abiNoCtorW [] ≠ .ok [] := by
  refine ⟨rfl, rfl, fun h => ?_⟩
  rw [(rfl : deployPrepare 10 abiNoCtorW [] = .error .StopIterationErr)] at h
  exact Except.noConfusion h

/-- C6 amended: the absence of a constructor entry is NOT tolerated — when no
ABI entry has type "constructor", `deploy` fails with `StopIteration` before
any formatting; only when a constructor entry exists (the first one found)
are the constructor arguments formatted against its input types. -/
theorem c6_deploy_constructor_lookup (fuel : Nat) (abi : List AbiEntry)
    (args : List Value) :
    (abi.find? (fun i => i.type_ == "constructor") = Option.none →
      deployPrepare fuel abi args = .error .StopIterationErr) ∧
    (∀ e, abi.find? (fun i => i.type_ == "constructor") = some e →
      deployPrepare fuel abi args =
        format_inputs fuel "constructor" args (e.inputs.map (fun x => x.type_))) := by
  constructor
  · intro h
    unfold deployPrepare constructorTypes
    rw [h]
  · intro e h
    unfold deployPrepare constructorTypes
    rw [h]

/-- Witness for C6 (amended) at concrete ABIs: without a constructor entry
the lookup fails with `StopIteration`; with a `(uint256)` constructor the
argument 42 is formatted against `["uint256"]`. -/
theorem c6_deploy_constructor_lookup_witness :
    deployPrepare 10 abiNoCtorW [.int 42] = .error .StopIterationErr ∧
    deployPrepare 10 abiCtorW [.int 42] = .ok [.int 42] := by
  constructor
  · exact (c6_deploy_constructor_lookup 10 abiNoCtorW [.int 42]).1 (by rfl)
  · exact ((c6_deploy_constructor_lookup 10 abiCtorW [.int 42]).2
      ⟨"constructor", "", [⟨"a", "uint256"⟩], "nonpayable"⟩ (by rfl)).trans (by rfl)

theorem lookup_append_of_none {α β : Type} [BEq α] {k : α} {st rest : List (α × β)}
    (h : List.lookup k st = Option.none) :
    List.lookup k (st ++ rest) = List.lookup k rest := by
  induction st with
  | nil => rfl
  | cons p t ih =>
    cases p with
    | mk a b =>
      rw [List.cons_append]
      simp only [List.lookup] at h ⊢
      cases hk : k == a with
      | true => rw [hk] at h; exact Option.noConfusion h
      | false => rw [hk] at h; exact ih h

theorem lookup_none_not_mem {α β : Type} [BEq α] [LawfulBEq α] {k : α}
    {st : List (α × β)} (h : List.lookup k st = Option.none) :
    k ∉ st.map Prod.fst := by
  induction st with
  | nil => simp
  | cons p t ih =>
    cases p with
    | mk a b =>
      simp only [List.lookup] at h
      cases hk : k == a with
      | true => rw [hk] at h; exact Option.noConfusion h
      | false =>
        rw [hk] at h
        intro hm
        rcases List.mem_cons.mp hm with h1 | h2
        · rw [h1] at hk
          simp at hk
        · exact ih h h2

/-- C7: `at` idempotence.  `at` keys the registry by the checksummed address
(`cs`), so a second call whose address checksums to the same canonical form —
regardless of the input's letter-casing and of a differing owner argument —
returns the identical cached instance and the same registry; registry keys
stay duplicate-free (at most one instance per checksummed address), and a
first call either leaves the keys unchanged or appends exactly the
checksummed address. -/
theorem c7_at_idempotent (cs sha3 : String → String) (nm : String)
    (abi : List AbiEntry) (st st' : Registry) (a1 a2 : String) (o1 o2 : Value)
    (c : Contract) (hcs : cs a1 = cs a2)
    (h1 : deployerAt cs sha3 nm abi st a1 o1 = .ok (st', c)) :
    deployerAt cs sha3 nm abi st' a2 o2 = .ok (st', c) ∧
    ((st.map Prod.fst).Nodup → (st'.map Prod.fst).Nodup) ∧
    (st'.map Prod.fst = st.map Prod.fst ∨
      st'.map Prod.fst = st.map Prod.fst ++ [cs a1]) := by
  unfold deployerAt at h1 ⊢
  rw [← hcs]
  cases hl : List.lookup (cs a1) st with
  | some c0 =>
    rw [hl] at h1
    rw [Except.ok.injEq, Prod.mk.injEq] at h1
    obtain ⟨hst, hc⟩ := h1
    subst hst
    subst hc
    rw [hl]
    exact ⟨rfl, fun h => h, Or.inl rfl⟩
  | none =>
    rw [hl] at h1
    cases hcn : contractNew sha3 (cs a1) nm abi o1 with
    | error e =>
      rw [hcn] at h1
      exact Except.noConfusion h1
    | ok c1 =>
      rw [hcn] at h1
      rw [Except.ok.injEq, Prod.mk.injEq] at h1
      obtain ⟨hst, hc⟩ := h1
      subst hst
      subst hc
      rw [lookup_append_of_none hl]
      refine ⟨by simp [List.lookup], fun hnd => ?_, Or.inr (by simp)⟩
      rw [List.map_append, List.nodup_append]
      refine ⟨hnd, by simp, fun x hx hx2 => ?_⟩
      simp only [List.map_cons, List.map_nil, List.mem_singleton] at hx2
      subst hx2
      exact lookup_none_not_mem hl hx

/-- Witness for C7 at a concrete run: registering address "A" (checksummed to
"K" by the collaborator) on an empty registry, then calling `at` again with a
different address spelling "B" (same checksum) and a different owner returns
the identical cached instance and the unchanged one-entry registry. -/
theorem c7_at_idempotent_witness :
    deployerAt (fun _ => "K") (fun _ => "h") "T" [] [] "A" .none =
      .ok ([("K", cKW)], cKW) ∧
    deployerAt (fun _ => "K") (fun _ => "h") "T" [] [("K", cKW)] "B" (.str "bob") =
      .ok ([("K", cKW)], cKW) := by
  have h1 : deployerAt (fun _ => "K") (fun _ => "h") "T" [] [] "A" .none =
      .ok ([("K", cKW)], cKW) := by rfl
  exact ⟨h1, (c7_at_idempotent (fun _ => "K") (fun _ => "h") "T" [] [] [("K", cKW)]
    "A" "B" .none (.str "bob") cKW rfl h1).1⟩

theorem txGet_txSet_self (m : TxMap) (k : String) (v : Value) :
    txGet (txSet m k v) k = some v := by
  induction m with
  | nil => simp [txSet, txGet, List.lookup]
  | cons p t ih =>
    cases p with
    | mk k' v' =>
      by_cases hk : k' = k
      · subst hk
        simp [txSet, txGet, List.lookup]
      · unfold txSet
        rw [if_neg (by simp [hk])]
        unfold txGet at ih ⊢
        simp only [List.lookup]
        rw [show (k == k') = false by simp [Ne.symm hk]]
        exact ih

theorem txGet_txSet_ne (m : TxMap) (k k2 : String) (v : Value) (h : k2 ≠ k) :
    txGet (txSet m k v) k2 = txGet m k2 := by
  induction m with
  | nil =>
    simp only [txSet, txGet, List.lookup]
    rw [show (k2 == k) = false by simp [h]]
  | cons p t ih =>
    cases p with
    | mk k' v' =>
      by_cases hk : k' = k
      · subst hk
        unfold txSet
        rw [if_pos (by simp)]
        unfold txGet
        simp only [List.lookup]
        rw [show (k2 == k') = false by simp [h]]
      · unfold txSet
        rw [if_neg (by simp [hk])]
        unfold txGet at ih ⊢
        simp only [List.lookup]
        cases k2 == k' <;> simp [ih]

theorem txMutate_from_absent (owner : Value) (tx0 : TxMap)
    (h : txGet tx0 "from" = Option.none) :
    txGet (txMutate owner tx0) "from" = some owner := by
  have hk : txHasKey tx0 "from" = false := by
    unfold txHasKey
    unfold txGet at h
    rw [h]
    rfl
  unfold txMutate
  rw [hk]
  simp only [Bool.false_eq_true, if_false]
  cases hv : txGet (txSet tx0 "from" owner) "value" with
  | none => exact txGet_txSet_self tx0 "from" owner
  | some w =>
    cases w with
    | float q =>
      rw [txGet_txSet_ne _ "value" "from" _ (by decide)]
      exact txGet_txSet_self tx0 "from" owner
    | none => exact txGet_txSet_self tx0 "from" owner
    | int n => exact txGet_txSet_self tx0 "from" owner
    | str s => exact txGet_txSet_self tx0 "from" owner
    | bytes b => exact txGet_txSet_self tx0 "from" owner
    | list l => exact txGet_txSet_self tx0 "from" owner
    | dictRef r => exact txGet_txSet_self tx0 "from" owner

theorem txMutate_from_present (owner : Value) (tx0 : TxMap) (s : Value)
    (h : txGet tx0 "from" = some s) :
    txGet (txMutate owner tx0) "from" = some s := by
  have hk : txHasKey tx0 "from" = true := by
    unfold txHasKey
    unfold txGet at h
    rw [h]
    rfl
  unfold txMutate
  rw [hk]
  simp only [if_true]
  cases hv : txGet tx0 "value" with
  | none => exact h
  | some w =>
    cases w with
    | float q =>
      rw [txGet_txSet_ne _ "value" "from" _ (by decide)]
      exact h
    | none => exact h
    | int n => exact h
    | str s2 => exact h
    | bytes b => exact h
    | list l => exact h
    | dictRef r => exact h

theorem txMutate_value_float (owner : Value) (tx0 : TxMap) (q : Rat)
    (h : txGet tx0 "value" = some (.float q)) :
    txGet (txMutate owner tx0) "value" = some (.int (ratTrunc q)) := by
  unfold txMutate
  cases hk : txHasKey tx0 "from" with
  | true =>
    simp only [if_true]
    rw [h]
    exact txGet_txSet_self tx0 "value" (.int (ratTrunc q))
  | false =>
    simp only [Bool.false_eq_true, if_false]
    rw [txGet_txSet_ne _ "from" "value" _ (by decide), h]
    exact txGet_txSet_self _ "value" (.int (ratTrunc q))

theorem contractTxCall_no_dict (fuel : Nat) (m : ContractMethod)
    (store : List TxMap) (args : List Value)
    (h : ∀ j, args.getLast? ≠ some (.dictRef j)) :
    contractTxCall fuel m store args =
      (store, (format_inputs fuel m.fname args m.inputTypes).map
        (fun fa => { sender := m.owner, formatted := fa, tx := [("from", m.owner)] })) := by
  unfold contractTxCall
  cases hgl : args.getLast? with
  | none => rfl
  | some v =>
    cases v with
    | dictRef j => exact absurd hgl (h j)
    | none => rfl
    | int n => rfl
    | float q => rfl
    | str s => rfl
    | bytes b => rfl
    | list l => rfl

theorem contractTxCall_dict (fuel : Nat) (m : ContractMethod)
    (store : List TxMap) (rest : List Value) (i : Nat) :
    contractTxCall fuel m store (rest ++ [Value.dictRef i]) =
      (store.set i (txMutate m.owner (store.getD i [])),
       (format_inputs fuel m.fname rest m.inputTypes).map
         (fun fa => { sender := txSender m.owner (txMutate m.owner (store.getD i [])),
                      formatted := fa,
                      tx := txMutate m.owner (store.getD i []) })) := by
  unfold contractTxCall
  rw [List.getLast?_concat, List.dropLast_concat]

/-- C8: Transaction sender resolution.  With no trailing options map the
sender resolves to the bound owner (store untouched, options `{'from':
owner}`); with a trailing options map, the map's `from` defaults to the bound
owner when absent (and is kept when present, resolving the sender to it), a
float `value` is truncated to an integer, and the remaining positional
arguments are formatted and delegated — as the `TxRequest` — to the resolved
sender's `_contract_tx` interface. -/
theorem c8_tx_sender_resolution (fuel : Nat) (m : ContractMethod)
    (store : List TxMap) (args rest : List Value) (i : Nat) :
    ((∀ j, args.getLast? ≠ some (.dictRef j)) →
      contractTxCall fuel m store args =
        (store, (format_inputs fuel m.fname args m.inputTypes).map
          (fun fa => { sender := m.owner, formatted := fa,
                       tx := [("from", m.owner)] }))) ∧
    (contractTxCall fuel m store (rest ++ [Value.dictRef i]) =
      (store.set i (txMutate m.owner (store.getD i [])),
       (format_inputs fuel m.fname rest m.inputTypes).map
         (fun fa => { sender := txSender m.owner (txMutate m.owner (store.getD i [])),
                      formatted := fa,
                      tx := txMutate m.owner (store.getD i []) }))) ∧
    (∀ tx0 : TxMap, txGet tx0 "from" = Option.none →
      txGet (txMutate m.owner tx0) "from" = some m.owner ∧
      txSender m.owner (txMutate m.owner tx0) = m.owner) ∧
    (∀ (tx0 : TxMap) (s : Value), txGet tx0 "from" = some s →
      txSender m.owner (txMutate m.owner tx0) = s) ∧
    (∀ (tx0 : TxMap) (q : Rat), txGet tx0 "value" = some (.float q) →
      txGet (txMutate m.owner tx0) "value" = some (.int (ratTrunc q))) := by
  refine ⟨contractTxCall_no_dict fuel m store args,
    contractTxCall_dict fuel m store rest i,
    fun tx0 h => ?_, fun tx0 s h => ?_,
    fun tx0 q h => txMutate_value_float m.owner tx0 q h⟩
  · have hf := txMutate_from_absent m.owner tx0 h
    refine ⟨hf, ?_⟩
    unfold txSender
    rw [hf]
    rfl
  · have hf := txMutate_from_present m.owner tx0 s h
    unfold txSender
    rw [hf]
    rfl

/-- Witness for C8 at concrete inputs: without an options map the sender is
the bound owner; with a trailing map `{'value': 5/2}` the sender defaults to
the owner, the float value is truncated to 2, and the single positional
argument is formatted against `uint256`. -/
theorem c8_tx_sender_resolution_witness :
    contractTxCall 10 mW [] [.int 7] =
      ([], .ok { sender := .str "owner", formatted := [.int 7],
                 tx := [("from", .str "owner")] }) ∧
    contractTxCall 10 mW [[("value", .float qW)]] [.int 7, .dictRef 0] =
      ([[("value", .int 2), ("from", .str "owner")]],
        .ok { sender := .str "owner", formatted := [.int 7],
              tx := [("value", .int 2), ("from", .str "owner")] }) := by
  constructor
  · exact ((c8_tx_sender_resolution 10 mW [] [.int 7] [] 0).1
      (fun j h => Value.noConfusion (Option.some.inj h))).trans (by rfl)
  · exact ((c8_tx_sender_resolution 10 mW [[("value", .float qW)]]
      [.int 7, .dictRef 0] [.int 7] 0).2.1).trans (by rfl)

/-- C10: options-map in-place mutation.  When the trailing argument is an
options map (a dict reference into the store), the caller's own map object is
written in place: after the call the store holds, at that same reference, the
map with `from` inserted when absent and a float `value` truncated — and
every other dict in the store is untouched. -/
theorem c10_options_map_mutation (fuel : Nat) (m : ContractMethod)
    (store : List TxMap) (rest : List Value) (i : Nat) (h : i < store.length) :
    (contractTxCall fuel m store (rest ++ [Value.dictRef i])).1 =
      store.set i (txMutate m.owner store[i]) ∧
    ((contractTxCall fuel m store (rest ++ [Value.dictRef i])).1)[i]? =
      some (txMutate m.owner store[i]) ∧
    (∀ j, j ≠ i →
      ((contractTxCall fuel m store (rest ++ [Value.dictRef i])).1)[j]? = store[j]?) := by
  have hgd : store.getD i [] = store[i] := by
    simp [List.getD_eq_getElem?_getD, List.getElem?_eq_getElem h]
  have h1 : (contractTxCall fuel m store (rest ++ [Value.dictRef i])).1 =
      store.set i (txMutate m.owner store[i]) := by
    rw [contractTxCall_dict, hgd]
  refine ⟨h1, ?_, ?_⟩
  · rw [h1]
    exact List.getElem?_set_eq_of_lt _ h
  · intro j hj
    rw [h1, List.getElem?_set_ne (fun hh => hj hh.symm)]

/-- Witness for C10 at a concrete store: the dict at reference 0 is mutated
in place (float value truncated, `from` inserted), the dict at reference 1 is
untouched. -/
theorem c10_options_map_mutation_witness :
    (contractTxCall 10 mW [[("value", .float qW)], [("x", .int 1)]]
        [.int 7, .dictRef 0]).1 =
      [[("value", .int 2), ("from", .str "owner")], [("x", .int 1)]] ∧
    ((contractTxCall 10 mW [[("value", .float qW)], [("x", .int 1)]]
        [.int 7, .dictRef 0]).1)[1]? = some [("x", .int 1)] := by
  have h := c10_options_map_mutation 10 mW [[("value", .float qW)], [("x", .int 1)]]
    [.int 7] 0 (by decide)
  exact ⟨h.1.trans (by rfl), (h.2.2 1 (by decide)).trans (by rfl)⟩

/-- C9 amended: a Contract instance compares equal to (and, carrying its
address as its string content, hashes as) its checksummed address string —
but its printable value is NOT the bare address: `__str__` returns
`__repr__`, i.e. `"<Name Contract object 'address'>"`. -/
theorem c9_contract_identity_amended (sha3 : String → String) (addr nm : String)
    (abi : List AbiEntry) (owner : Value) (c : Contract)
    (h : contractNew sha3 addr nm abi owner = .ok c) :
    c.strValue = addr ∧
    (∀ s, Contract.pyEq c s = true ↔ s = addr) ∧
    Contract.str_ c = "<" ++ nm ++ " Contract object '" ++ addr ++ "'>" ∧
    Contract.str_ c = Contract.repr_ c := by
  unfold contractNew at h
  cases hcb : contractBaseInit sha3 nm abi with
  | error e =>
    rw [hcb] at h
    exact Except.noConfusion h
  | ok cb =>
    rw [hcb] at h
    rw [Except.ok.injEq] at h
    subst h
    have hnm : cb._name = nm := by
      unfold contractBaseInit at hcb
      by_cases hd : (duplicates (functionNames abi)).isEmpty = true
      · simp only [if_pos hd] at hcb
        rw [Except.ok.injEq] at hcb
        rw [← hcb]
      · simp only [if_neg hd] at hcb
        exact Except.noConfusion hcb
    refine ⟨rfl, fun s => ?_, ?_, rfl⟩
    · unfold Contract.pyEq
      exact ⟨fun h => (eq_of_beq h).symm, fun h => by rw [h]; exact beq_self_eq_true addr⟩
    · unfold Contract.str_ Contract.repr_
      rw [hnm]

/-- C9 counterexample: for the concrete instance `cTokW` (address "0xABC",
name "Token") produced by the Contract constructor, the printable value
(`str()`, which returns `repr()`) is "<Token Contract object '0xABC'>" and
NOT the address string, refuting the claim that the printable value equals
the checksummed address — while equality-comparison against the address still
holds. -/
theorem c9_printable_value_cex :
    contractNew (fun _ => "h") "0xABC" "Token" [] .none = .ok cTokW ∧
    Contract.str_ cTokW = "<Token Contract object '0xABC'>" ∧
    Contract.str_ cTokW ≠ "0xABC" ∧
    Contract.pyEq cTokW "0xABC" = true := by
  exact ⟨rfl, rfl, by decide, rfl⟩

/-- Witness for C9 (amended) at the concrete instance: string content is the
address, comparison with the address succeeds, and the printable value is the
repr string. -/
theorem c9_contract_identity_witness :
    cTokW.strValue = "0xABC" ∧
    Contract.pyEq cTokW "0xABC" = true ∧
    Contract.str_ cTokW = "<Token Contract object '0xABC'>" := by
  have h := c9_contract_identity_amended (fun _ => "h") "0xABC" "Token" [] .none cTokW rfl
  exact ⟨h.1, (h.2.1 "0xABC").mpr rfl, h.2.2.1.trans (by rfl)⟩

end Brownie
